import Mathlib

/-!
Verification development for the ai-workflows repository.

The repository's core library (the `ai_workflows` package: `llm_utilities` and
`document_utilities`) is not shipped in this source snapshot; its behaviour is
documented in `README.rst` ("Markdown conversion" and "JSON conversion"
sections) and in the specification.  Those components are therefore modelled
here from that documentation, while the notebook code (the templated-extraction
notebook and the qualitative-analysis notebook) is embedded directly from its
source.
-/

namespace AiWorkflows

/-! ## Conversion strategy selector

Modelled from the spec: `ConversionStrategySelector.select` of the
`document_utilities` module (code not under `src/`); the decision ladder
follows the spec's decision policy rules 1-6, which match the "Markdown
conversion" section of `src/README.rst` lines 95-117. -/

/-- Closed set of document format tags (spec data model). -/
inductive DocFormat where
  | PDF
  | DOCX
  | DOC
  | PPTX
  | XLSX
  | CSV
  | HTML
  | PLAIN_TEXT
  | OTHER_TEXT
  deriving DecidableEq, Repr

/-- Conversion strategies (spec 4.1 contract). -/
inductive Strategy where
  | PLAIN_PARSE
  | GENERIC_NONLLM_PARSE
  | LLM_PAGE_IMAGE
  | OFFICE_VIA_PDF_THEN_LLM
  | OFFICE_VIA_PDF_THEN_NONLLM
  | SPREADSHEET_STRUCTURED_PARSE
  | PAGE_BY_PAGE_JSON_DIRECT
  deriving DecidableEq, Repr

/-- Immutable document properties consulted by the selector (spec data model):
format tag, page count, estimated token count, presence of embedded
charts/images, and page count after office-to-PDF rendering. -/
structure Document where
  format : DocFormat
  pageCount : Nat
  estTokens : Nat
  hasChartsOrImages : Bool
  pagesAfterRendering : Nat
  deriving DecidableEq, Repr

/-- Capability configuration consulted by the selector's decision policy
(whether an LLM gateway is configured). -/
structure Capabilities where
  llmConfigured : Bool
  deriving DecidableEq, Repr

/-- Modelled from the spec: the selector's deterministic decision ladder
(spec 4.1 rules 1-6; `src/README.rst` "Markdown conversion" items 1-5). -/
def select (d : Document) (c : Capabilities) : Strategy :=
  match d.format with
  | .PDF => if c.llmConfigured then .LLM_PAGE_IMAGE else .GENERIC_NONLLM_PARSE
  | .XLSX =>
      if !d.hasChartsOrImages then .SPREADSHEET_STRUCTURED_PARSE
      else if c.llmConfigured && d.pagesAfterRendering ≤ 10 then .OFFICE_VIA_PDF_THEN_LLM
      else .GENERIC_NONLLM_PARSE
  | .DOCX => if c.llmConfigured then .OFFICE_VIA_PDF_THEN_LLM else .GENERIC_NONLLM_PARSE
  | .DOC => if c.llmConfigured then .OFFICE_VIA_PDF_THEN_LLM else .GENERIC_NONLLM_PARSE
  | .PPTX => if c.llmConfigured then .OFFICE_VIA_PDF_THEN_LLM else .GENERIC_NONLLM_PARSE
  | _ => .GENERIC_NONLLM_PARSE

/-- Whether a strategy is page-oriented and LLM-based (the LLM page-image
method, used directly for PDFs and after office-to-PDF rendering). -/
def pageOrientedLLM (s : Strategy) : Bool :=
  s == .LLM_PAGE_IMAGE || s == .OFFICE_VIA_PDF_THEN_LLM

/-- Fixed page/token ceiling for the direct-JSON bypass: at most 50 pages and
at most 25,000 estimated tokens (`src/README.rst` lines 128-130). -/
def withinDirectJsonCeiling (d : Document) : Bool :=
  d.pageCount ≤ 50 && d.estTokens ≤ 25000

/-- Modelled from the spec: the strategy used by
`DocumentInterface.convert_to_json` (code not under `src/`).  The decision
criteria follow `src/README.rst` "JSON conversion" lines 122-131: convert
straight to JSON page-by-page if the natural Markdown strategy is
page-oriented and LLM-based AND either (a) `markdown_first` was explicitly
provided as `False`, or (b) `markdown_first` was not explicitly provided as
`True` and the file is within the 50-page/25,000-token ceiling; otherwise use
the natural Markdown strategy and extract JSON from the Markdown. -/
def jsonConversionPath (d : Document) (c : Capabilities) (markdownFirst : Option Bool) :
    Strategy :=
  if pageOrientedLLM (select d c) &&
      (markdownFirst == some false ||
        (markdownFirst != some true && withinDirectJsonCeiling d)) then
    .PAGE_BY_PAGE_JSON_DIRECT
  else select d c

/-- Condition claimed by C1 for taking the direct path: `explicit_markdown_first`
is false and the estimated size is within the fixed ceiling (stated from the
claim's words, for comparison with `jsonConversionPath`). -/
def claimedDirectCondition (d : Document) (c : Capabilities) (markdownFirst : Option Bool) :
    Bool :=
  pageOrientedLLM (select d c) && markdownFirst == some false && withinDirectJsonCeiling d

/-- Concrete document used to separate the claimed condition from the code:
a 60-page PDF estimated at 30,000 tokens, above the ceiling. -/
def pdf60 : Document := ⟨.PDF, 60, 30000, false, 60⟩

/-- Capability configuration with an LLM present. -/
def capsLLM : Capabilities := ⟨true⟩

/-- The natural strategy never is the JSON-direct override. -/
theorem select_ne_direct (d : Document) (c : Capabilities) :
    select d c ≠ .PAGE_BY_PAGE_JSON_DIRECT := by
  unfold select
  cases d.format <;> dsimp only <;> first
    | (intro h; exact Strategy.noConfusion h)
    | (split <;> first
        | (intro h; exact Strategy.noConfusion h)
        | (split <;> intro h <;> exact Strategy.noConfusion h))

/-- Claim C2: `select` returns exactly the strategy given by the fixed priority
ladder — a PDF with an LLM yields LLM_PAGE_IMAGE; a PDF without an LLM yields
GENERIC_NONLLM_PARSE; an XLSX without charts/images yields
SPREADSHEET_STRUCTURED_PARSE; an XLSX with charts/images yields
OFFICE_VIA_PDF_THEN_LLM when an LLM is configured and the rendered page count
is at most 10, else GENERIC_NONLLM_PARSE; DOCX/DOC/PPTX yields
OFFICE_VIA_PDF_THEN_LLM when an LLM is configured, else GENERIC_NONLLM_PARSE;
every other format yields GENERIC_NONLLM_PARSE — so `select` is total and
never fails. -/
theorem select_priority_ladder (d : Document) (c : Capabilities) :
    (d.format = .PDF → c.llmConfigured = true → select d c = .LLM_PAGE_IMAGE) ∧
    (d.format = .PDF → c.llmConfigured = false → select d c = .GENERIC_NONLLM_PARSE) ∧
    (d.format = .XLSX → d.hasChartsOrImages = false →
      select d c = .SPREADSHEET_STRUCTURED_PARSE) ∧
    (d.format = .XLSX → d.hasChartsOrImages = true → c.llmConfigured = true →
      d.pagesAfterRendering ≤ 10 → select d c = .OFFICE_VIA_PDF_THEN_LLM) ∧
    (d.format = .XLSX → d.hasChartsOrImages = true →
      ¬(c.llmConfigured = true ∧ d.pagesAfterRendering ≤ 10) →
      select d c = .GENERIC_NONLLM_PARSE) ∧
    ((d.format = .DOCX ∨ d.format = .DOC ∨ d.format = .PPTX) → c.llmConfigured = true →
      select d c = .OFFICE_VIA_PDF_THEN_LLM) ∧
    ((d.format = .DOCX ∨ d.format = .DOC ∨ d.format = .PPTX) → c.llmConfigured = false →
      select d c = .GENERIC_NONLLM_PARSE) ∧
    (d.format ≠ .PDF → d.format ≠ .XLSX → d.format ≠ .DOCX → d.format ≠ .DOC →
      d.format ≠ .PPTX → select d c = .GENERIC_NONLLM_PARSE) := by
  obtain ⟨fmt, pages, toks, charts, rendered⟩ := d
  obtain ⟨llm⟩ := c
  refine ⟨?_, ?_, ?_, ?_, ?_, ?_, ?_, ?_⟩ <;>
    cases fmt <;> cases llm <;> cases charts <;>
      simp_all [select]

/-- Witness for C2 at a concrete input: a PDF with an LLM configured selects
the LLM page-image strategy. -/
theorem select_priority_ladder_witness :
    select pdf60 capsLLM = .LLM_PAGE_IMAGE :=
  (select_priority_ladder pdf60 capsLLM).1 rfl rfl

/-- Claim C5: the selector is a pure deterministic function — two calls with
equal (document, capabilities, markdown-first) inputs yield the same strategy,
both for the natural Markdown strategy and for the JSON conversion path. -/
theorem select_deterministic (d₁ d₂ : Document) (c₁ c₂ : Capabilities)
    (m₁ m₂ : Option Bool) (hd : d₁ = d₂) (hc : c₁ = c₂) (hm : m₁ = m₂) :
    select d₁ c₁ = select d₂ c₂ ∧
    jsonConversionPath d₁ c₁ m₁ = jsonConversionPath d₂ c₂ m₂ := by
  subst hd; subst hc; subst hm; exact ⟨rfl, rfl⟩

/-- Witness for C5 at a concrete input. -/
theorem select_deterministic_witness :
    select pdf60 capsLLM = select pdf60 capsLLM ∧
    jsonConversionPath pdf60 capsLLM none = jsonConversionPath pdf60 capsLLM none :=
  select_deterministic pdf60 pdf60 capsLLM capsLLM none none rfl rfl rfl

/-- Counterexample to claim C1: for a 60-page PDF (above the 50-page/25,000-token
ceiling) requested as JSON with `markdown_first` explicitly `False`, the code
takes the direct PAGE_BY_PAGE_JSON_DIRECT path even though the condition
claimed by C1 (explicit_markdown_first false AND within the ceiling) is false,
so the claimed "if and only if" fails. -/
theorem jsonConversionPath_c1_counterexample :
    jsonConversionPath pdf60 capsLLM (some false) = .PAGE_BY_PAGE_JSON_DIRECT ∧
    claimedDirectCondition pdf60 capsLLM (some false) = false := by
  exact ⟨rfl, rfl⟩

/-- Claim C1 (amended): for a JSON-target request whose natural Markdown
strategy is page-oriented and LLM-based, the code overrides to
PAGE_BY_PAGE_JSON_DIRECT if and only if `markdown_first` was explicitly
provided as `False`, or `markdown_first` was not explicitly provided as `True`
and the document is within the 50-page/25,000-token ceiling; every other
request goes through full Markdown first (the natural strategy).  In
particular a 60-page PDF requested as JSON with `markdown_first` unset takes
the Markdown-first path, not the direct path. -/
theorem jsonConversionPath_direct_iff (d : Document) (c : Capabilities)
    (m : Option Bool) :
    (jsonConversionPath d c m = .PAGE_BY_PAGE_JSON_DIRECT ↔
      (pageOrientedLLM (select d c) = true ∧
        (m = some false ∨ (m ≠ some true ∧ withinDirectJsonCeiling d = true)))) ∧
    (jsonConversionPath d c m ≠ .PAGE_BY_PAGE_JSON_DIRECT →
      jsonConversionPath d c m = select d c) := by
  constructor
  · unfold jsonConversionPath
    split
    next hcond =>
      simp only [Bool.and_eq_true, Bool.or_eq_true, beq_iff_eq, bne_iff_ne] at hcond
      simp only [true_iff]
      exact ⟨hcond.1, hcond.2.imp id id⟩
    next hcond =>
      simp only [Bool.and_eq_true, Bool.or_eq_true, beq_iff_eq, bne_iff_ne] at hcond
      constructor
      · intro h; exact absurd h (select_ne_direct d c)
      · intro h; exact absurd ⟨h.1, h.2⟩ hcond
  · intro h
    unfold jsonConversionPath at h ⊢
    split at h
    · exact absurd rfl h
    next hneg => rw [if_neg hneg]

/-- Witness for C1 (amended): the 60-page PDF with `markdown_first` unset goes
through full Markdown (LLM page-image strategy), not the direct path. -/
theorem jsonConversionPath_direct_iff_witness :
    jsonConversionPath pdf60 capsLLM none = .LLM_PAGE_IMAGE ∧
    ¬(pageOrientedLLM (select pdf60 capsLLM) = true ∧
      ((none : Option Bool) = some false ∨
        ((none : Option Bool) ≠ some true ∧ withinDirectJsonCeiling pdf60 = true))) := by
  refine ⟨?_, ?_⟩
  · have h := (jsonConversionPath_direct_iff pdf60 capsLLM none).2 (by decide)
    exact h.trans (by decide)
  · intro hcl
    have h := (jsonConversionPath_direct_iff pdf60 capsLLM none).1.mpr hcl
    exact absurd h (by decide)

/-! ## Token budgeter

Modelled from the spec: `count_tokens` and `enforce_max_tokens` of the
`llm_utilities` module (code not under `src/`).  The spec describes the
TokenBudgeter as counting the tokens of a text blob and truncating text to fit
a budget; a text is modelled as its token sequence. -/

/-- Modelled from the spec: `count_tokens(text)` returns the number of tokens
in the text (text modelled as its token sequence). -/
def count_tokens (text : List String) : Nat := text.length

/-- Modelled from the spec: `enforce_max_tokens(text, max_tokens)` truncates
the text to its first `max_tokens` tokens. -/
def enforce_max_tokens (text : List String) (maxTokens : Nat) : List String :=
  text.take maxTokens

/-- Claim C6: token-budget truncation is idempotent — for every text and every
budget, `enforce_max_tokens (enforce_max_tokens text N) N = enforce_max_tokens
text N`. -/
theorem enforce_max_tokens_idempotent (text : List String) (n : Nat) :
    enforce_max_tokens (enforce_max_tokens text n) n = enforce_max_tokens text n := by
  unfold enforce_max_tokens
  rw [List.take_take, Nat.min_self]

/-- Truncation never exceeds the budget (supporting fact for the budgeter). -/
theorem count_tokens_enforce_le (text : List String) (n : Nat) :
    count_tokens (enforce_max_tokens text n) ≤ n := by
  unfold count_tokens enforce_max_tokens
  simp

/-! ## Markdown assembler

Modelled from the spec: `MarkdownAssembler.assemble` of the
`document_utilities` module (code not under `src/`).  Per the spec's 4.3
contract it concatenates per-unit Markdown fragments in ordinal order (the
fuzzy header/footer-stripping heuristics are explicitly approximate and are
outside the ordering property stated by the claim). -/

/-- One Markdown fragment tagged with the ordinal of the unit it came from. -/
structure MarkdownUnit where
  ordinal : Nat
  markdown : String
  deriving DecidableEq, Repr

/-- Ordering of Markdown units by their ordinal. -/
def ordLe (u v : MarkdownUnit) : Prop := u.ordinal ≤ v.ordinal

/-- Strict ordering of Markdown units by their ordinal. -/
def ordLt (u v : MarkdownUnit) : Prop := u.ordinal < v.ordinal

instance : DecidableRel ordLe := fun u v => Nat.decLe u.ordinal v.ordinal

instance : IsTotal MarkdownUnit ordLe := ⟨fun u v => Nat.le_total u.ordinal v.ordinal⟩

instance : IsTrans MarkdownUnit ordLe := ⟨fun _ _ _ h h' => Nat.le_trans h h'⟩

instance : IsAntisymm MarkdownUnit ordLt := ⟨fun _ _ h h' => absurd h' (Nat.lt_asymm h)⟩

/-- Modelled from the spec: `assemble(units_with_markdown)` concatenates the
fragments in ordinal order into a single Markdown string. -/
def assemble (units : List MarkdownUnit) : String :=
  String.join ((units.insertionSort ordLe).map (fun u => u.markdown))

/-- A list sorted by ordinal with pairwise distinct ordinals is strictly
sorted by ordinal. -/
theorem sorted_ordLt_of_sorted_ordLe {l : List MarkdownUnit}
    (hs : l.Sorted ordLe) (hn : (l.map (fun u => u.ordinal)).Nodup) :
    l.Sorted ordLt := by
  have hne : l.Pairwise (fun u v : MarkdownUnit => u.ordinal ≠ v.ordinal) :=
    (List.pairwise_map).mp hn
  exact (hs.and hne).imp (fun h => Nat.lt_of_le_of_ne h.1 h.2)

/-- Claim C7: assembly is order-preserving — assembling any permutation of the
units (with distinct ordinals) yields the same output as assembling the
original sequence, because both are re-sorted by ordinal first; and for a
sequence already in ordinal order, the assembled string is exactly the
concatenation of the fragments in that order (the canonical full Markdown). -/
theorem assemble_order_preserving (units scrambled : List MarkdownUnit)
    (hperm : scrambled.Perm units)
    (hnodup : (units.map (fun u => u.ordinal)).Nodup) :
    assemble scrambled = assemble units ∧
    (units.Sorted ordLe →
      assemble units = String.join (units.map (fun u => u.markdown))) := by
  constructor
  · have hp : (scrambled.insertionSort ordLe).Perm (units.insertionSort ordLe) :=
      ((List.perm_insertionSort ordLe scrambled).trans hperm).trans
        (List.perm_insertionSort ordLe units).symm
    have hnodup₁ : ((units.insertionSort ordLe).map (fun u => u.ordinal)).Nodup := by
      refine (List.Perm.nodup_iff ?_).mpr hnodup
      exact (List.perm_insertionSort ordLe units).map (fun u => u.ordinal)
    have hnodup₂ : ((scrambled.insertionSort ordLe).map (fun u => u.ordinal)).Nodup := by
      refine (List.Perm.nodup_iff ?_).mpr hnodup₁
      exact hp.map (fun u => u.ordinal)
    have hs₁ : (scrambled.insertionSort ordLe).Sorted ordLt :=
      sorted_ordLt_of_sorted_ordLe (List.sorted_insertionSort ordLe scrambled) hnodup₂
    have hs₂ : (units.insertionSort ordLe).Sorted ordLt :=
      sorted_ordLt_of_sorted_ordLe (List.sorted_insertionSort ordLe units) hnodup₁
    unfold assemble
    rw [List.eq_of_perm_of_sorted hp hs₁ hs₂]
  · intro hsorted
    unfold assemble
    rw [hsorted.insertionSort_eq]

/-- Witness for C7 at a concrete input: two fragments assembled in scrambled
order equal the in-order assembly, which is the plain concatenation. -/
theorem assemble_order_preserving_witness :
    assemble [⟨1, "b"⟩, ⟨0, "a"⟩] = assemble [⟨0, "a"⟩, ⟨1, "b"⟩] ∧
    assemble [⟨0, "a"⟩, ⟨1, "b"⟩] =
      String.join ([⟨0, "a"⟩, ⟨1, "b"⟩].map (fun u : MarkdownUnit => u.markdown)) := by
  have h := assemble_order_preserving [⟨0, "a"⟩, ⟨1, "b"⟩] [⟨1, "b"⟩, ⟨0, "a"⟩]
    (by decide) (by decide)
  exact ⟨h.1, h.2 (by constructor <;> simp [ordLe])⟩

/-! ## LLM gateway

Modelled from the spec: `LLMInterface.get_json_response` of the
`llm_utilities` module (code not under `src/`).  Per the spec's 4.4 contract
and design note 9 the call is a bounded retry loop with an elapsed-time check
at loop entry: up to `1 + maxRetries` attempts, each attempt asks the provider
stub for a parsed object (`none` models every expected failure mode: transient
provider error or JSON that stays malformed after repair), and the loop stops
early once the configured total timeout has elapsed.  The result triple
carries the parsed object or `none`, the error or `none`, and the number of
retries consumed. -/

/-- Gateway-level errors: all bounded retries exhausted, or the configured
total timeout elapsed. -/
inductive GatewayError where
  | retriesExhausted
  | timedOut
  deriving DecidableEq, Repr

/-- Result triple of `get_json_response`: parsed object (or none), error (or
none), and retries consumed. -/
structure GatewayResult where
  parsed : Option String
  error : Option GatewayError
  retries : Nat
  deriving DecidableEq, Repr

/-- Wall-clock time elapsed before attempt `k` starts: the sum of the
durations of attempts `0 .. k-1`. -/
def elapsedBefore (dur : Nat → Nat) : Nat → Nat
  | 0 => 0
  | k + 1 => elapsedBefore dur k + dur k

/-- Modelled from the spec: the bounded retry loop of `get_json_response`
(design note: a bounded loop with elapsed-time and attempt-count checks).
`fuel` counts the attempts still allowed and `k` is the index of the next
attempt. -/
def gatewayLoop (provider : Nat → Option String) (dur : Nat → Nat) (timeoutS : Nat) :
    Nat → Nat → GatewayResult
  | 0, k => ⟨none, some .retriesExhausted, k⟩
  | fuel + 1, k =>
      if timeoutS ≤ elapsedBefore dur k then ⟨none, some .timedOut, k⟩
      else
        match provider k with
        | some txt => ⟨some txt, none, k⟩
        | none => gatewayLoop provider dur timeoutS fuel (k + 1)

/-- Modelled from the spec: `get_json_response` makes an initial attempt plus
up to `maxRetries` retries, under a total timeout. -/
def get_json_response (provider : Nat → Option String) (dur : Nat → Nat)
    (maxRetries timeoutS : Nat) : GatewayResult :=
  gatewayLoop provider dur timeoutS (maxRetries + 1) 0

/-- Elapsed time is monotone in the attempt index. -/
theorem elapsedBefore_mono (dur : Nat → Nat) {j k : Nat} (h : j ≤ k) :
    elapsedBefore dur j ≤ elapsedBefore dur k := by
  induction k with
  | zero => rw [Nat.le_zero.mp h]
  | succ n ih =>
      rcases Nat.lt_or_ge j (n + 1) with hlt | hge
      · exact Nat.le_trans (ih (Nat.lt_succ_iff.mp hlt)) (Nat.le_add_right _ _)
      · have : j = n + 1 := Nat.le_antisymm h hge
        subst this
        exact Nat.le_refl _

/-- If the first success within the remaining budget happens at attempt `i`
before the timeout, the loop returns that success with `i` prior failures. -/
theorem gatewayLoop_success (provider : Nat → Option String) (dur : Nat → Nat)
    (timeoutS : Nat) (fuel k i : Nat) (obj : String)
    (hki : k ≤ i) (hfuel : i < k + fuel)
    (hfail : ∀ j, k ≤ j → j < i → provider j = none)
    (hok : provider i = some obj)
    (htime : elapsedBefore dur i < timeoutS) :
    gatewayLoop provider dur timeoutS fuel k = ⟨some obj, none, i⟩ := by
  induction fuel generalizing k with
  | zero => omega
  | succ n ih =>
      unfold gatewayLoop
      rw [if_neg (by
        intro hto
        exact absurd (Nat.lt_of_le_of_lt (elapsedBefore_mono dur hki) htime)
          (Nat.not_lt.mpr hto))]
      rcases Nat.eq_or_lt_of_le hki with heq | hlt
      · subst heq
        rw [hok]
      · rw [hfail k (Nat.le_refl k) hlt]
        exact ih (k + 1) hlt (by omega) (fun j hj hj' => hfail j (by omega) hj')

/-- If the loop ends with an error, then every attempt inside the budget that
would have started before the timeout failed. -/
theorem gatewayLoop_error (provider : Nat → Option String) (dur : Nat → Nat)
    (timeoutS : Nat) (fuel k : Nat)
    (herr : (gatewayLoop provider dur timeoutS fuel k).error.isSome = true) :
    ∀ j, k ≤ j → j < k + fuel → elapsedBefore dur j < timeoutS → provider j = none := by
  induction fuel generalizing k with
  | zero => omega
  | succ n ih =>
      intro j hj hj' htime
      unfold gatewayLoop at herr
      by_cases hto : timeoutS ≤ elapsedBefore dur k
      · exact absurd (Nat.lt_of_le_of_lt (elapsedBefore_mono dur hj) htime)
          (Nat.not_lt.mpr hto)
      · rw [if_neg hto] at herr
        rcases hp : provider k with _ | txt
        · rcases Nat.eq_or_lt_of_le hj with heq | hlt
          · subst heq; exact hp
          · rw [hp] at herr
            exact ih (k + 1) herr j hlt (by omega) htime
        · rw [hp] at herr
          simp at herr

/-- Claim C4: `get_json_response` returns a non-null error only when every
attempt within the retry budget and timeout failed (all retries exhausted or
the timeout elapsed); and given a provider that fails the first `k` attempts
(`k < maxRetries`) with a retryable error and then succeeds before the
timeout, the call returns the parsed success with a null error and reports `k`
retries consumed.  The model is a total function, so expected failure modes
never raise. -/
theorem get_json_response_contract (provider : Nat → Option String)
    (dur : Nat → Nat) (maxRetries timeoutS : Nat) :
    ((get_json_response provider dur maxRetries timeoutS).error.isSome = true →
      ∀ j, j ≤ maxRetries → elapsedBefore dur j < timeoutS → provider j = none) ∧
    (∀ k obj, k < maxRetries → (∀ j, j < k → provider j = none) →
      provider k = some obj → elapsedBefore dur k < timeoutS →
      get_json_response provider dur maxRetries timeoutS = ⟨some obj, none, k⟩) := by
  constructor
  · intro herr j hj htime
    exact gatewayLoop_error provider dur timeoutS (maxRetries + 1) 0 herr j
      (Nat.zero_le j) (by omega) htime
  · intro k obj hk hfail hok htime
    exact gatewayLoop_success provider dur timeoutS (maxRetries + 1) 0 k obj
      (Nat.zero_le k) (by omega) (fun j _ hj' => hfail j hj') hok htime

/-- Concrete provider stub that fails its first attempt and succeeds on its
second. -/
def stubProvider : Nat → Option String := fun n => if n = 1 then some "ok" else none

/-- Concrete per-attempt duration of one second. -/
def stubDuration : Nat → Nat := fun _ => 1

/-- Witness for C4: with 2 configured retries and a 600-second timeout, the
stub that fails once then succeeds yields the success, a null error, and one
retry consumed. -/
theorem get_json_response_contract_witness :
    get_json_response stubProvider stubDuration 2 600 =
      ⟨some "ok", none, 1⟩ := by
  refine (get_json_response_contract stubProvider stubDuration 2 600).2 1 "ok"
    (by omega) (fun j hj => ?_) rfl (by simp [elapsedBefore, stubDuration])
  have hj0 : j = 0 := by omega
  subst hj0
  rfl

/-! ## JSON extractor

Modelled from the spec: `JsonExtractor.extract` of the `document_utilities`
module (code not under `src/`).  Per the spec's 4.5 contract each unit is
processed independently through the gateway; a unit whose extraction failed
after the gateway's retries contributes an empty result with the failure
recorded in its JsonResult-entry error field, the merge concatenates each
chunk's list contribution in unit ordinal order, and the whole request reports
failure exactly when zero units succeed. -/

/-- One page or logical chunk of a document, with the ordinal used for
reassembly (the spec's ConversionUnit). -/
structure ConversionUnit where
  ordinal : Nat
  content : String
  deriving DecidableEq, Repr

/-- One JsonResult entry: the unit's ordinal, its list contribution, and its
error field (the spec's JsonResult carries an error indicator per chunk). -/
structure JsonEntry where
  ordinal : Nat
  data : List String
  error : Option String
  deriving DecidableEq, Repr

/-- Concatenation of the per-chunk list contributions. -/
def concatAll (ls : List (List String)) : List String := ls.foldr (· ++ ·) []

/-- Modelled from the spec: the JsonResult entry produced for one unit — the
gateway's parsed list on success, an empty contribution with the failure
recorded in the error field on failure. -/
def extractEntry (gw : ConversionUnit → Except String (List String))
    (u : ConversionUnit) : JsonEntry :=
  match gw u with
  | .ok l => ⟨u.ordinal, l, none⟩
  | .error e => ⟨u.ordinal, [], some e⟩

/-- Modelled from the spec: `extract(units, ...)` processes each unit
independently, in order, producing one JsonResult entry per unit. -/
def jsonExtract (gw : ConversionUnit → Except String (List String))
    (units : List ConversionUnit) : List JsonEntry :=
  units.map (extractEntry gw)

/-- Modelled from the spec: the default merge — concatenation of all chunks'
list contributions in unit ordinal order. -/
def mergeResults (entries : List JsonEntry) : List String :=
  concatAll (entries.map (fun e => e.data))

/-- Modelled from the spec: the whole request reports failure exactly when no
unit succeeded. -/
def requestFailed (entries : List JsonEntry) : Bool :=
  entries.all (fun e => e.error.isSome)

/-- Entry produced for a unit whose gateway call succeeded. -/
theorem extractEntry_ok {gw : ConversionUnit → Except String (List String)}
    {u : ConversionUnit} {l : List String} (hgw : gw u = .ok l) :
    extractEntry gw u = ⟨u.ordinal, l, none⟩ := by
  unfold extractEntry
  rw [hgw]

/-- Entry produced for a unit whose gateway call failed. -/
theorem extractEntry_error {gw : ConversionUnit → Except String (List String)}
    {u : ConversionUnit} {e : String} (hgw : gw u = .error e) :
    extractEntry gw u = ⟨u.ordinal, [], some e⟩ := by
  unfold extractEntry
  rw [hgw]

/-- The merge of an extraction result concatenates exactly the successful
units' contributions, in order. -/
theorem mergeResults_jsonExtract (gw : ConversionUnit → Except String (List String))
    (units : List ConversionUnit) :
    mergeResults (jsonExtract gw units) =
      concatAll (units.filterMap (fun u => (gw u).toOption)) := by
  induction units with
  | nil => rfl
  | cons u rest ih =>
      have hmerge : mergeResults (jsonExtract gw (u :: rest)) =
          (extractEntry gw u).data ++ mergeResults (jsonExtract gw rest) := rfl
      rcases hgw : gw u with e | l
      · have h2 : (gw u).toOption = none := by rw [hgw]; rfl
        rw [hmerge, extractEntry_error hgw, List.nil_append, ih,
          List.filterMap_cons, h2]
      · have h2 : (gw u).toOption = some l := by rw [hgw]; rfl
        rw [hmerge, extractEntry_ok hgw, ih, List.filterMap_cons, h2]
        rfl

/-- Claim C3: over any units and gateway, (a) the result has one entry per
unit; (b) a unit whose extraction failed contributes an empty result with the
failure recorded in its entry's error field; (c) the merged result is exactly
the concatenation of the successful units' contributions in ordinal order; and
(d) the whole request reports failure iff zero units succeed. -/
theorem jsonExtract_partial_failure (gw : ConversionUnit → Except String (List String))
    (units : List ConversionUnit) :
    (jsonExtract gw units).length = units.length ∧
    (∀ u, u ∈ units → ∀ e, gw u = .error e →
      extractEntry gw u = ⟨u.ordinal, [], some e⟩) ∧
    mergeResults (jsonExtract gw units) =
      concatAll (units.filterMap (fun u => (gw u).toOption)) ∧
    (requestFailed (jsonExtract gw units) = true ↔
      ∀ u, u ∈ units → ∃ e, gw u = .error e) := by
  refine ⟨List.length_map units (extractEntry gw), ?_, mergeResults_jsonExtract gw units, ?_⟩
  · intro u _ e he
    exact extractEntry_error he
  · unfold requestFailed jsonExtract
    rw [List.all_eq_true]
    constructor
    · intro h u hu
      have := h (extractEntry gw u) (List.mem_map_of_mem (extractEntry gw) hu)
      rcases hgw : gw u with e | l
      · exact ⟨e, rfl⟩
      · rw [extractEntry_ok hgw] at this
        simp at this
    · intro h en hen
      rcases List.mem_map.mp hen with ⟨u, hu, rfl⟩
      rcases h u hu with ⟨e, he⟩
      rw [extractEntry_error he]
      rfl

/-- Concrete gateway stub for the C3 witness: the middle unit of three fails. -/
def stubUnitGateway : ConversionUnit → Except String (List String) :=
  fun u => if u.ordinal = 1 then .error "boom" else .ok [u.content]

/-- Concrete three-unit input for the C3 witness. -/
def stubUnits : List ConversionUnit := [⟨0, "a"⟩, ⟨1, "b"⟩, ⟨2, "c"⟩]

/-- Witness for C3: with unit 1 of 3 failing, the failing unit's entry records
the error with an empty contribution, the merge keeps the other two units'
contributions in order, and the request does not report failure. -/
theorem jsonExtract_partial_failure_witness :
    extractEntry stubUnitGateway ⟨1, "b"⟩ = ⟨1, [], some "boom"⟩ ∧
    mergeResults (jsonExtract stubUnitGateway stubUnits) = ["a", "c"] ∧
    requestFailed (jsonExtract stubUnitGateway stubUnits) = false := by
  have h := jsonExtract_partial_failure stubUnitGateway stubUnits
  refine ⟨h.2.1 ⟨1, "b"⟩ (by decide) "boom" rfl, ?_, ?_⟩
  · rw [h.2.2.1]
    rfl
  · have hiff := h.2.2.2
    rcases hb : requestFailed (jsonExtract stubUnitGateway stubUnits) with _ | _
    · rfl
    · rcases (hiff.mp hb) ⟨0, "a"⟩ (by decide) with ⟨e, he⟩
      exact absurd he (by simp [stubUnitGateway])

/-! ## Templated-extraction notebook: template dictionary

Embedded from `src/unnamed/part_000` (the templated-extraction notebook),
"Extracting data" cell: the template is read from the first two columns of the
first worksheet into an insertion-ordered dictionary, keeping only rows whose
first two cells are both truthy, stripping both strings, and never overwriting
an already-seen key.  A worksheet cell is modelled as `Option String` (`none`
for an empty cell); Python truthiness makes `None` and the empty string falsy. -/

/-- A worksheet row as produced by `iter_rows(values_only=True)`: a list of
optional cell values. -/
abbrev WsRow := List (Option String)

/-- Python truthiness of a cell value: `None` and the empty string are falsy. -/
def cellTruthy : Option String → Bool
  | none => false
  | some s => !(s == "")

/-- Characters removed by Python's `str.strip()` with no arguments. -/
def isPySpace (c : Char) : Bool :=
  c == ' ' || c == '\t' || c == '\n' || c == '\r' || c == '\x0b' || c == '\x0c'

/-- Python's `str.strip()`: drop leading and trailing whitespace. -/
def pyStrip (s : String) : String :=
  ⟨((s.data.dropWhile isPySpace).reverse.dropWhile isPySpace).reverse⟩

/-- Insertion-ordered dictionary lookup (Python `dict` membership and
subscript, on string keys). -/
def dictGet (d : List (String × String)) (k : String) : Option String :=
  match d with
  | [] => none
  | (k', v) :: rest => if k' = k then some v else dictGet rest k

/-- One iteration of the template-loading loop: take `row[0]`/`row[1]` (or
`None` when the row is short), and if both are truthy and the stripped key is
not already present, append the stripped key/value pair. -/
def insertTemplateRow (d : List (String × String)) (row : WsRow) : List (String × String) :=
  if cellTruthy (row.getD 0 none) && cellTruthy (row.getD 1 none) then
    if (dictGet d (pyStrip ((row.getD 0 none).getD ""))).isSome then d
    else d ++ [(pyStrip ((row.getD 0 none).getD ""), pyStrip ((row.getD 1 none).getD ""))]
  else d

/-- The notebook's `template_dict`, built by folding the loop body over the
worksheet rows. -/
def templateDict (rows : List WsRow) : List (String × String) :=
  rows.foldl insertTemplateRow []

/-- Whether a row is the kind of row claim C8 says defines key `k`: both of
its first two cells truthy and its stripped first cell equal to `k` (stated
from the claim's words, for comparison with `templateDict`). -/
def rowDefines (row : WsRow) (k : String) : Bool :=
  cellTruthy (row.getD 0 none) && cellTruthy (row.getD 1 none) &&
    pyStrip ((row.getD 0 none).getD "") == k

/-- The value C8 predicts for key `k`: the stripped second cell of the first
row that defines `k` (stated from the claim's words). -/
def firstTemplateValue (rows : List WsRow) (k : String) : Option String :=
  (rows.find? (fun r => rowDefines r k)).map (fun r => pyStrip ((r.getD 1 none).getD ""))

/-- Looking up a key after appending one binding falls back to the appended
binding only when the key was absent. -/
theorem dictGet_append_single (d : List (String × String)) (key v k : String) :
    dictGet (d ++ [(key, v)]) k =
      ((dictGet d k).or (if key = k then some v else none)) := by
  induction d with
  | nil => rfl
  | cons p rest ih =>
      obtain ⟨k', v'⟩ := p
      by_cases h : k' = k
      · simp [dictGet, h]
      · simp only [List.cons_append, dictGet, if_neg h]
        exact ih

/-- Invariant of the template-loading fold: the final lookup is the
accumulated lookup, falling back to the first defining row of the remaining
input. -/
theorem dictGet_foldl_insertTemplateRow (rows : List WsRow)
    (d : List (String × String)) (k : String) :
    dictGet (rows.foldl insertTemplateRow d) k =
      ((dictGet d k).or (firstTemplateValue rows k)) := by
  induction rows generalizing d with
  | nil =>
      rw [List.foldl_nil]
      cases dictGet d k <;> rfl
  | cons row rest ih =>
      rw [List.foldl_cons, ih]
      rcases hq : rowDefines row k with _ | _
      · have hq' : ¬((fun r => rowDefines r k) row = true) := by simp [hq]
        have hfv : firstTemplateValue (row :: rest) k = firstTemplateValue rest k := by
          unfold firstTemplateValue
          rw [List.find?_cons_of_neg rest hq']
        rw [hfv]
        unfold rowDefines at hq
        unfold insertTemplateRow
        rcases htruthy : cellTruthy (row.getD 0 none) && cellTruthy (row.getD 1 none)
          with _ | _
        · rw [if_neg Bool.false_ne_true]
        · rw [if_pos rfl]
          have hkey : pyStrip ((row.getD 0 none).getD "") ≠ k := by
            intro hcontra
            rw [htruthy, hcontra] at hq
            simp at hq
          rcases hpresent : (dictGet d (pyStrip ((row.getD 0 none).getD ""))).isSome
            with _ | _
          · rw [if_neg Bool.false_ne_true]
            rw [dictGet_append_single, if_neg hkey]
            cases dictGet d k <;> rfl
          · rw [if_pos rfl]
      · have hq' : (fun r => rowDefines r k) row = true := hq
        have hfv : firstTemplateValue (row :: rest) k =
            some (pyStrip ((row.getD 1 none).getD "")) := by
          unfold firstTemplateValue
          rw [List.find?_cons_of_pos rest hq']
          rfl
        rw [hfv]
        unfold rowDefines at hq
        rw [Bool.and_eq_true, Bool.and_eq_true, beq_iff_eq] at hq
        obtain ⟨⟨ht0, ht1⟩, hkeq⟩ := hq
        unfold insertTemplateRow
        rw [if_pos (by rw [ht0, ht1]; rfl), hkeq]
        rcases hd : dictGet d k with _ | w
        · rw [if_neg (by simp)]
          rw [dictGet_append_single, hd, if_pos rfl]
          rfl
        · rw [if_pos Option.isSome_some, hd]
          rfl

/-- Claim C8: the template dictionary maps every key to the stripped column-B
value of the first worksheet row whose first two cells are both truthy
(non-`None`, non-empty) and whose stripped column-A value is that key; rows
with an empty or missing first or second cell are skipped, and a later row
with an already-seen key never overwrites the earlier value. -/
theorem templateDict_first_wins (rows : List WsRow) (k : String) :
    dictGet (templateDict rows) k = firstTemplateValue rows k := by
  unfold templateDict
  rw [dictGet_foldl_insertTemplateRow]
  cases firstTemplateValue rows k <;> rfl

/-- Concrete worksheet for illustrating C8: a skipped row (empty value cell),
a first binding for a key, and a duplicate-key row that must not overwrite. -/
def exampleRows : List WsRow :=
  [[some "meta_row_desc", none],
   [some " meta_document_desc ", some " surveys "],
   [some "meta_document_desc", some "other"]]

/-- Concrete evaluation of C8 on `exampleRows`: the stripped first binding
wins and the skipped row defines nothing. -/
theorem templateDict_first_wins_example :
    dictGet (templateDict exampleRows) "meta_document_desc" = some "surveys" ∧
    dictGet (templateDict exampleRows) "meta_row_desc" = none := by
  exact ⟨by decide, by decide⟩

/-! ## Templated-extraction notebook: page-by-page option

Embedded from `src/unnamed/part_000`: `page_by_page` starts as `False` and is
set from `template_dict` when the `meta_opt_page_by_page` key is present;
`convert_to_json` is then called with `markdown_first=not page_by_page`. -/

/-- Python's `str.lower()`, modelled characterwise over the string's
character list. -/
def pyLower (s : String) : String :=
  ⟨s.data.map Char.toLower⟩

/-- The notebook's `page_by_page` flag: `False` unless the template contains
`meta_opt_page_by_page` with value `'1'` or (lowercased) `'true'`. -/
def pageByPage (td : List (String × String)) : Bool :=
  match dictGet td "meta_opt_page_by_page" with
  | none => false
  | some v => v == "1" || pyLower v == "true"

/-- The `markdown_first` argument the notebook passes to `convert_to_json`:
the negation of `page_by_page`. -/
def markdownFirstArg (td : List (String × String)) : Bool :=
  !(pageByPage td)

/-- Claim C9: `convert_to_json` is always called with `markdown_first` equal
to the negation of `page_by_page`; `page_by_page` is true exactly when the
template contains a `meta_opt_page_by_page` key whose value is the exact
string `'1'` or is `'true'` after lowercasing; and when the key is absent,
`markdown_first` is true. -/
theorem markdownFirstArg_negation (td : List (String × String)) :
    markdownFirstArg td = !(pageByPage td) ∧
    (pageByPage td = true ↔
      ∃ v, dictGet td "meta_opt_page_by_page" = some v ∧
        (v = "1" ∨ pyLower v = "true")) ∧
    (dictGet td "meta_opt_page_by_page" = none → markdownFirstArg td = true) := by
  refine ⟨rfl, ?_, ?_⟩
  · unfold pageByPage
    rcases hv : dictGet td "meta_opt_page_by_page" with _ | v
    · simp
    · rw [Bool.or_eq_true, beq_iff_eq, beq_iff_eq]
      constructor
      · intro h
        exact ⟨v, rfl, h⟩
      · rintro ⟨w, hw, hcase⟩
        rw [Option.some_inj] at hw
        subst hw
        exact hcase
  · intro habsent
    unfold markdownFirstArg pageByPage
    rw [habsent]
    rfl

/-- Witness for C9: a template marking `meta_opt_page_by_page` as `TRUE`
yields `page_by_page` true, and a template without the key yields
`markdown_first` true. -/
theorem markdownFirstArg_negation_witness :
    pageByPage [("meta_opt_page_by_page", "TRUE")] = true ∧
    markdownFirstArg [("meta_document_desc", "d")] = true := by
  constructor
  · exact (markdownFirstArg_negation [("meta_opt_page_by_page", "TRUE")]).2.1.mpr
      ⟨"TRUE", by decide, Or.inr (by decide)⟩
  · exact (markdownFirstArg_negation [("meta_document_desc", "d")]).2.2 (by decide)

/-! ## Qualitative-analysis notebook: output stage

Embedded from `src/src/example-qual-analysis-1.ipynb`: the coding cell stores
either the parsed list of applied codes or (on error) an empty-string
placeholder in `document['codes']`, and the output cell computes, per code,
a presence dummy (`1` iff the code id is among the document's assigned code
ids), the first matching excerpt (or the empty string), and a
`num_transcripts` tally (the number of documents whose assigned codes contain
the id).  Iterating over the empty-string placeholder yields no elements, so
it is modelled as a distinguished empty codes field. -/

/-- One code application returned by the coding call: a code id plus the
supporting excerpt. -/
structure AppliedCode where
  id : String
  excerpt : String
  deriving DecidableEq, Repr

/-- The `document['codes']` field: the empty-string placeholder written when
the coding call returned an error, or the parsed list of applied codes. -/
inductive CodesField where
  | errorEmpty
  | coded (l : List AppliedCode)
  deriving DecidableEq, Repr

/-- A document record as used by the output cell. -/
structure QDocument where
  file : String
  summary : String
  codes : CodesField
  deriving DecidableEq, Repr

/-- Iterating Python's `document['codes']`: the error placeholder (an empty
string) yields no elements. -/
def codesList : CodesField → List AppliedCode
  | .errorEmpty => []
  | .coded l => l

/-- The list comprehension `[c['id'] for c in document['codes']]`. -/
def codeIds (d : QDocument) : List String :=
  (codesList d.codes).map (fun c => c.id)

/-- The notebook's `code_present` dummy: `1` if the code id occurs among the
document's assigned code ids, else `0`. -/
def codePresent (d : QDocument) (codeId : String) : Nat :=
  if codeId ∈ codeIds d then 1 else 0

/-- The notebook's `code_excerpt`: the first matching assigned excerpt, or the
empty string (`next((c['excerpt'] for c in document['codes'] if c['id'] ==
code_id), "")`). -/
def codeExcerpt (d : QDocument) (codeId : String) : String :=
  match (codesList d.codes).find? (fun c => c.id == codeId) with
  | some c => c.excerpt
  | none => ""

/-- The notebook's `num_transcripts` tally: the sum over documents of the
membership booleans. -/
def numTranscripts (docs : List QDocument) (codeId : String) : Nat :=
  (docs.map (fun d => if codeId ∈ codeIds d then 1 else 0)).sum

/-- The excerpt C10 predicts: the excerpt of the first assigned code matching
the id, or the empty string (stated from the claim's words via `filter`). -/
def firstMatchingExcerpt (d : QDocument) (codeId : String) : String :=
  match (codesList d.codes).filter (fun c => c.id == codeId) with
  | [] => ""
  | c :: _ => c.excerpt

/-- Finding the first element satisfying a predicate is the head of the
filtered list. -/
theorem find?_eq_head_filter (p : AppliedCode → Bool) (l : List AppliedCode) :
    l.find? p = (l.filter p).head? := by
  induction l with
  | nil => rfl
  | cons c rest ih =>
      rcases hp : p c with _ | _
      · rw [List.find?_cons_of_neg rest (by simp [hp]), List.filter_cons_of_neg (by simp [hp])]
        exact ih
      · rw [List.find?_cons_of_pos rest hp, List.filter_cons_of_pos hp]
        rfl

/-- Claim C10: in the output stage, the presence column is `1` exactly when
the code's id appears among the document's assigned code ids and `0`
otherwise; the excerpt column is the first matching assigned excerpt or the
empty string; each code's `num_transcripts` tally is the number of documents
whose assigned codes contain its id; and a document whose coding call errored
(codes recorded as the empty string) contributes `0` with an empty excerpt
for every code. -/
theorem output_stage_columns (docs : List QDocument) (d : QDocument) (codeId : String) :
    (codePresent d codeId = 1 ↔ codeId ∈ codeIds d) ∧
    (codePresent d codeId = 0 ↔ codeId ∉ codeIds d) ∧
    codeExcerpt d codeId = firstMatchingExcerpt d codeId ∧
    numTranscripts docs codeId = docs.countP (fun x => codeId ∈ codeIds x) ∧
    (d.codes = .errorEmpty → codePresent d codeId = 0 ∧ codeExcerpt d codeId = "") := by
  refine ⟨?_, ?_, ?_, ?_, ?_⟩
  · unfold codePresent
    by_cases h : codeId ∈ codeIds d
    · simp [h]
    · simp [h]
  · unfold codePresent
    by_cases h : codeId ∈ codeIds d
    · simp [h]
    · simp [h]
  · unfold codeExcerpt firstMatchingExcerpt
    rw [find?_eq_head_filter]
    cases (codesList d.codes).filter (fun c => c.id == codeId) <;> rfl
  · unfold numTranscripts
    induction docs with
    | nil => rfl
    | cons x rest ih =>
        rw [List.map_cons, List.sum_cons, ih, List.countP_cons]
        by_cases h : codeId ∈ codeIds x
        · simp [h, Nat.add_comm]
        · simp [h]
  · intro herr
    rw [show codePresent d codeId = if codeId ∈ codeIds d then 1 else 0 from rfl]
    unfold codeExcerpt codeIds
    rw [herr]
    exact ⟨by rw [show codesList CodesField.errorEmpty = [] from rfl]; simp, rfl⟩

/-- Witness for C10 at concrete data: one coded document and one errored
document, with a two-code codebook. -/
theorem output_stage_columns_witness :
    codePresent ⟨"t1", "s1", .coded [⟨"c1", "e1"⟩]⟩ "c1" = 1 ∧
    codeExcerpt ⟨"t1", "s1", .coded [⟨"c1", "e1"⟩]⟩ "c2" = "" ∧
    numTranscripts [⟨"t1", "s1", .coded [⟨"c1", "e1"⟩]⟩, ⟨"t2", "s2", .errorEmpty⟩] "c1" = 1 ∧
    codePresent ⟨"t2", "s2", .errorEmpty⟩ "c1" = 0 := by
  have h1 := output_stage_columns [] ⟨"t1", "s1", .coded [⟨"c1", "e1"⟩]⟩ "c1"
  have h2 := output_stage_columns
    [⟨"t1", "s1", .coded [⟨"c1", "e1"⟩]⟩, ⟨"t2", "s2", .errorEmpty⟩]
    ⟨"t2", "s2", .errorEmpty⟩ "c1"
  refine ⟨h1.1.mpr (by decide), ?_, ?_, (h2.2.2.2.2 rfl).1⟩
  · rw [(output_stage_columns [] ⟨"t1", "s1", .coded [⟨"c1", "e1"⟩]⟩ "c2").2.2.1]
    decide
  · rw [h2.2.2.2.1]
    decide

end AiWorkflows
